import Mathlib

/-!
# Verification of the x_scrapper collection and aggregation core

Shallow embedding of the Python sources of the `x_scrapper` repository:

* `api_scraper.py` — `RateLimiter.wait_if_needed`,
  `TwitterAPIClient.search_recent_tweets`, `TwitterAPIClient.get_user_tweets`;
* `selenium_scraper.py` — `SeleniumTwitterScraper._parse_number`,
  `SeleniumTwitterScraper._extract_tweet_from_element` (id generation);
* `scraper_main.py` — `SentimentAnalyzer.analyze`, `DataPersistence.save_tweet`,
  `DataPersistence.get_tweets`, `DataPersistence.get_trending_analysis`;
* `crypto_scraper_orchestrator.py` — `CryptoTwitterIntelligence.scrape_account`,
  `CryptoTwitterIntelligence.search_keywords`,
  `CryptoTwitterIntelligence.generate_intelligence_report`.

Modelling conventions:

* `time.time()` values and sleep durations are exact rationals (`ℚ`);
  the Python code uses IEEE-754 doubles, whose rounding is immaterial to the
  properties proved here.
* ISO-8601 timestamp strings stored in SQLite are modelled as integers
  (seconds); SQLite's lexicographic comparison of same-format ISO strings
  agrees with chronological order, hence with integer comparison.
* `datetime.now() - timedelta(hours=h)` becomes `now - h * 3600`.
* Python exceptions are modelled with `Option`/`Except`: a `try` block that
  may fail is a value of `Except ε α`, and the `except` handler is a `match`.
* External collaborators (the tweepy client, the Selenium driver, SQLite)
  enter the model as explicit inputs: page streams, element lists, and an
  in-memory list of rows keyed by `tweet_id` (the table's PRIMARY KEY).
-/

/-! ## Data model: the `Tweet` dataclass of `scraper_main.py` -/

/-- The `Tweet` dataclass of `scraper_main.py`.  Timestamps are modelled as
integers (seconds), sentiment scores as exact rationals. -/
structure Tweet where
  tweet_id : String
  username : String
  display_name : String
  text : String
  timestamp : Int
  likes : Int
  retweets : Int
  replies : Int
  views : Option Int
  is_verified : Bool
  hashtags : List String
  mentions : List String
  urls : List String
  media_urls : List String
  sentiment_score : Option ℚ
  sentiment_label : Option String
  scraped_at : Int
  source : String
  deriving DecidableEq, Repr

/-! ## RateLimiter (`api_scraper.py`, lines 15–39)

```python
def wait_if_needed(self):
    now = time.time()
    while self.calls and self.calls[0] < now - self.time_window:
        self.calls.popleft()
    if len(self.calls) >= self.max_calls:
        sleep_time = self.time_window - (now - self.calls[0]) + 1
        if sleep_time > 0:
            time.sleep(sleep_time)
            self.calls.clear()
    self.calls.append(now)
```

The deque of call timestamps is a `List ℚ` (oldest first).  One invocation is
a function of the current wall-clock time `now`; it returns the new deque
together with the time at which the call to `wait_if_needed` returns (the
call-completion timestamp: `now` if no sleep happened, `now + sleep_time`
after a sleep).  `self.calls[0]` on an empty deque raises `IndexError` in
Python (reachable only when `max_calls = 0`); this is the `none` case. -/

/-- One invocation of `RateLimiter.wait_if_needed` at wall-clock time `now`,
given the quota `max_calls`, the window `time_window` and the current deque
`calls`.  Returns `(new deque, completion time)`, or `none` for the
`IndexError` raised by `self.calls[0]` on an empty deque. -/
def wait_if_needed (max_calls : ℕ) (time_window : ℚ) (calls : List ℚ) (now : ℚ) :
    Option (List ℚ × ℚ) :=
  let calls := calls.dropWhile (fun c => c < now - time_window)
  if calls.length ≥ max_calls then
    match calls with
    | [] => none
    | c0 :: _ =>
      let sleep_time := time_window - (now - c0) + 1
      if sleep_time > 0 then
        some ([now], now + sleep_time)
      else
        some (calls ++ [now], now)
  else
    some (calls ++ [now], now)

/-- A sequence of `wait_if_needed` invocations at the given wall-clock
arrival times, threading the deque.  Returns the final deque and the list of
call-completion times, or `none` if any invocation raised. -/
def runCalls (max_calls : ℕ) (time_window : ℚ) (calls : List ℚ) :
    List ℚ → Option (List ℚ × List ℚ)
  | [] => some (calls, [])
  | now :: rest =>
    match wait_if_needed max_calls time_window calls now with
    | none => none
    | some (calls', c) =>
      match runCalls max_calls time_window calls' rest with
      | none => none
      | some (final, cs) => some (final, c :: cs)

/-- A run is admissible if each call arrives no earlier than the completion
of the previous call (single-threaded client) and arrivals are given to a
monotone clock. -/
def admissibleRun (arrivals completions : List ℚ) : Bool :=
  match arrivals, completions with
  | _, [] => true
  | [], _ => false
  | _ :: as_, c :: cs =>
    (match as_, cs with
     | a' :: _, _ => decide (c ≤ a')
     | [], _ => true) && admissibleRun as_ cs

/-! ## API collector (`api_scraper.py`, lines 82–252)

`search_recent_tweets` and `get_user_tweets` paginate inside a single
`try`; the `except` branch returns the empty list.  A raw record is left
abstract (`Tweet` is reused as the record type; only identity matters).
The tweepy response of one page is modelled as `Page`: the processed
records of the page and whether `response.meta` carried a `next_token`.
The collaborator is a function from the page index to `Except ε Page`;
an `Except.error` is a Python exception raised during that page fetch. -/

/-- One page of API results: the processed tweet dicts and whether the
response carried a `next_token` for a further page. -/
structure Page where
  data : List Tweet
  has_next : Bool
  deriving DecidableEq, Repr

/-- The pagination `while remaining > 0` loop shared by
`search_recent_tweets` and `get_user_tweets`: fetch a page, stop on empty
data, extend the accumulator, decrement `remaining`, continue only when a
`next_token` is present.  An exception during a fetch propagates to the
enclosing `try` as `Except.error`. -/
def pagesLoop (fetch : ℕ → Except Unit Page) (idx : ℕ) (remaining : ℕ)
    (acc : List Tweet) : Except Unit (List Tweet) :=
  if h : remaining = 0 then .ok acc
  else
    match fetch idx with
    | .error e => .error e
    | .ok page =>
      if hd : page.data.length = 0 then .ok acc
      else
        let acc' := acc ++ page.data
        if page.has_next then
          pagesLoop fetch (idx + 1) (remaining - page.data.length) acc'
        else
          .ok acc'
termination_by remaining
decreasing_by
  exact Nat.sub_lt (Nat.pos_of_ne_zero h) (Nat.pos_of_ne_zero hd)

/-- `TwitterAPIClient.search_recent_tweets`: returns `[]` without fetching
when no client is configured; otherwise runs the pagination loop inside
`try`, and the `except Exception` handler returns `[]`. -/
def search_recent_tweets (hasClient : Bool) (fetch : ℕ → Except Unit Page)
    (max_results : ℕ) : List Tweet :=
  if !hasClient then []
  else
    match pagesLoop fetch 0 max_results [] with
    | .ok tweets => tweets
    | .error _ => []

/-- `TwitterAPIClient.get_user_tweets`: like `search_recent_tweets` but the
`try` additionally begins with a user-id lookup, which may itself raise
(`Except.error`) or report the user as missing (`none`, returning `[]`). -/
def get_user_tweets (hasClient : Bool) (lookup : Except Unit (Option ℕ))
    (fetch : ℕ → Except Unit Page) (max_results : ℕ) : List Tweet :=
  if !hasClient then []
  else
    match lookup with
    | .error _ => []
    | .ok none => []
    | .ok (some _) =>
      match pagesLoop fetch 0 max_results [] with
      | .ok tweets => tweets
      | .error _ => []

/-! ## Substring containment (Python's `in` on strings)

Python's `phrase in text` tests whether `phrase` occurs as a contiguous
substring of `text`. -/

/-- `containsSub hay pat = true` iff `pat` occurs as a contiguous substring
of `hay` (Python's `pat in hay` for strings, on the character lists). -/
def containsSub : List Char → List Char → Bool
  | hay, pat =>
    pat.isPrefixOf hay ||
      match hay with
      | [] => false
      | _ :: t => containsSub t pat

/-- String version of `containsSub`. -/
def strContains (hay pat : String) : Bool :=
  containsSub hay.toList pat.toList

/-- Number of (possibly overlapping) occurrences of `pat` in `hay`: the
number of positions of `hay` at which `pat` starts.  This follows the
spec's words ("count occurrences … a phrase appearing twice counts twice"),
for comparison with the code's boolean membership test. -/
def occurrenceCount : List Char → List Char → ℕ
  | hay, pat =>
    (if pat.isPrefixOf hay then 1 else 0) +
      match hay with
      | [] => 0
      | _ :: t => occurrenceCount t pat

/-! ## SentimentAnalyzer (`scraper_main.py`, lines 51–118)

```python
text_lower = text.lower()
words = set(text_lower.split())
positive_matches = len(words.intersection(self.crypto_positive))
negative_matches = len(words.intersection(self.crypto_negative))
positive_patterns = sum(1 for phrase in self.market_indicators['positive'] if phrase in text_lower)
negative_patterns = sum(1 for phrase in self.market_indicators['negative'] if phrase in text_lower)
total_signals = positive_matches + negative_matches + positive_patterns + negative_patterns
polarity = 0.0 if total_signals == 0 else ((pos+pp) - (neg+np)) / total_signals
bullish = count 🚀 + count 📈 + count 💎 + count 🐂 ; bearish = count 📉 + count 🐻 + count 💀
polarity += (bullish - bearish) * 0.05 ; polarity = max(-1.0, min(1.0, polarity))
label  = positive if polarity > 0.15, negative if polarity < -0.15, else neutral
```
-/

/-- `SentimentAnalyzer.crypto_positive` (the Python set literal; `adoption`
appears twice in the source literal, which a set collapses). -/
def crypto_positive : List String :=
  ["bullish", "moon", "rocket", "pump", "gains", "breakthrough",
   "adoption", "partnership", "launch", "approved", "soaring", "surge",
   "rally", "breakout", "accumulate", "hodl", "gem", "alpha", "long",
   "buy", "accumulation", "institutional", "etf", "utility"]

/-- `SentimentAnalyzer.crypto_negative`. -/
def crypto_negative : List String :=
  ["bearish", "dump", "crash", "scam", "rug", "rugpull", "fud",
   "decline", "plunge", "reject", "rejected", "liquidation", "short",
   "hack", "exploit", "vulnerable", "warning", "caution", "ponzi",
   "bubble", "overvalued", "sell", "exit", "risk", "fraud"]

/-- `SentimentAnalyzer.market_indicators['positive']`. -/
def market_positive : List String :=
  ["ath", "breakout", "golden cross", "support", "buy signal"]

/-- `SentimentAnalyzer.market_indicators['negative']`. -/
def market_negative : List String :=
  ["death cross", "resistance", "sell signal", "breakdown"]

/-- `str.lower()`, character by character (equivalent to `String.toLower`,
stated on the character list so that kernel evaluation works). -/
def pyLower (s : String) : String := String.mk (s.toList.map Char.toLower)

/-- Helper for `pySplitWs`: accumulates the current word (reversed). -/
def wordsAux : List Char → List Char → List (List Char)
  | [], cur => if cur.isEmpty then [] else [cur.reverse]
  | c :: rest, cur =>
    if c.isWhitespace then
      if cur.isEmpty then wordsAux rest [] else cur.reverse :: wordsAux rest []
    else wordsAux rest (c :: cur)

/-- `str.split()` with no argument: split on whitespace runs, dropping
empty fragments. -/
def pySplitWs (s : List Char) : List (List Char) := wordsAux s []

/-- `set(text_lower.split())`. -/
def wordSet (text_lower : String) : Finset String :=
  ((pySplitWs text_lower.toList).map String.mk).toFinset

/-- `len(words.intersection(lexicon))`. -/
def lexiconMatches (text_lower : String) (lexicon : List String) : ℕ :=
  (wordSet text_lower ∩ lexicon.toFinset).card

/-- `sum(1 for phrase in phrases if phrase in text_lower)`: each phrase
contributes at most once, by substring membership. -/
def patternMatches (text_lower : String) (phrases : List String) : ℕ :=
  (phrases.filter (fun phrase => strContains text_lower phrase)).length

/-- `text.count(emoji)` summed over a list of emoji characters (counts are
taken on the original, non-lowercased text). -/
def emojiCount (text : String) (emojis : List Char) : ℕ :=
  (emojis.map (fun e => text.toList.count e)).sum

/-- Result of `SentimentAnalyzer.analyze`. -/
structure SentimentResult where
  polarity : ℚ
  label : String
  positive_signals : ℕ
  negative_signals : ℕ
  confidence : ℚ
  deriving DecidableEq, Repr

/-- `SentimentAnalyzer.analyze` (`scraper_main.py`, lines 74–118). -/
def analyze (text : String) : SentimentResult :=
  let text_lower := pyLower text
  let positive_matches := lexiconMatches text_lower crypto_positive
  let negative_matches := lexiconMatches text_lower crypto_negative
  let positive_patterns := patternMatches text_lower market_positive
  let negative_patterns := patternMatches text_lower market_negative
  let total_signals :=
    positive_matches + negative_matches + positive_patterns + negative_patterns
  let polarity : ℚ :=
    if total_signals = 0 then 0
    else (((positive_matches + positive_patterns : ℤ) -
           (negative_matches + negative_patterns : ℤ) : ℤ) : ℚ) / total_signals
  let bullish_emojis := emojiCount text ['🚀', '📈', '💎', '🐂']
  let bearish_emojis := emojiCount text ['📉', '🐻', '💀']
  let polarity := polarity + ((bullish_emojis : ℚ) - (bearish_emojis : ℚ)) * (5 / 100)
  let polarity := max (-1 : ℚ) (min 1 polarity)
  let label := if polarity > 15 / 100 then "positive"
               else if polarity < -(15 / 100) then "negative"
               else "neutral"
  { polarity := polarity
    label := label
    positive_signals := positive_matches + positive_patterns
    negative_signals := negative_matches + negative_patterns
    confidence := |polarity| }

/-! ## Metric-string parsing (`selenium_scraper.py`, lines 321–346)

```python
def _parse_number(self, text):
    if not text: return 0
    text = re.sub(r'[^\d.KMB]', '', text.upper())
    if not text or text == '': return 0
    try:
        multiplier = 1
        if 'K' in text:   multiplier = 1000;       text = text.replace('K', '')
        elif 'M' in text: multiplier = 1000000;    text = text.replace('M', '')
        elif 'B' in text: multiplier = 1000000000; text = text.replace('B', '')
        return int(float(text) * multiplier)
    except: return 0
```

`float(...)` is modelled exactly on the strings reachable here (digits and
dots only — everything else was stripped or causes `float` to raise):
it succeeds iff there is at most one dot and at least one digit, and its
value is then an exact rational.  `int(x)` truncates toward zero; every
reachable value is nonnegative, so truncation is the floor. -/

/-- Numeric value of a digit run (most significant first). -/
def digitsVal (ds : List Char) : ℕ :=
  ds.foldl (fun acc c => 10 * acc + (c.toNat - '0'.toNat)) 0

/-- `float(text)` on a string whose characters are only digits and dots:
`some` exact rational value, or `none` when Python's `float` raises
(`ValueError`).  Characters other than digits and dots (e.g. a leftover
`M` after the `K` branch) also make `float` raise. -/
def pyFloat (s : List Char) : Option ℚ :=
  if ¬ s.all (fun c => c.isDigit || c = '.') then none
  else if s.count '.' > 1 then none
  else if s.count '.' = 1 then
    let ip := s.takeWhile (· ≠ '.')
    let fp := (s.dropWhile (· ≠ '.')).drop 1
    if ip.isEmpty ∧ fp.isEmpty then none
    else some ((digitsVal ip : ℚ) + (digitsVal fp : ℚ) / (10 : ℚ) ^ fp.length)
  else if s.isEmpty then none
  else some (digitsVal s : ℚ)

/-- Characters kept by `re.sub(r'[^\d.KMB]', '', ·)`. -/
def keptChar (c : Char) : Bool :=
  c.isDigit || c = '.' || c = 'K' || c = 'M' || c = 'B'

/-- `re.sub(r'[^\d.KMB]', '', text.upper())`. -/
def strippedUpper (text : String) : List Char :=
  (text.toList.map Char.toUpper).filter keptChar

/-- The `if 'K' in text … elif 'M' … elif 'B' …` cascade: selects the
multiplier and removes every occurrence of the selected letter
(`str.replace` removes all occurrences). -/
def multiplierSplit (t : List Char) : ℤ × List Char :=
  if t.contains 'K' then (1000, t.filter (· ≠ 'K'))
  else if t.contains 'M' then (1000000, t.filter (· ≠ 'M'))
  else if t.contains 'B' then (1000000000, t.filter (· ≠ 'B'))
  else (1, t)

/-- `SeleniumTwitterScraper._parse_number`.  `int(float(text) * multiplier)`
truncates toward zero; every reachable product is nonnegative, so this is
the floor. -/
def parse_number (text : String) : Int :=
  if text.isEmpty then 0
  else
    let t := strippedUpper text
    if t.isEmpty then 0
    else
      let m := multiplierSplit t
      match pyFloat m.2 with
      | none => 0
      | some q => ⌊q * (m.1 : ℚ)⌋

/-! ## Browser-scraped tweet identity (`selenium_scraper.py`, lines 205–267)

```python
tweet_id = f"{username}_{hash(text + str(timestamp))}"
```

`hash` is CPython's built-in string hash.  Since Python 3.3 it is *salted*:
its value depends on a per-process random key (`PYTHONHASHSEED`), so the
same string hashes differently in different runs of the program.  The
shallow embedding makes the per-process seed an explicit argument; the
mixing function below is a stand-in with the property that matters here and
that any salted hash has: the output depends on the seed as well as on the
string (witnessed at concrete seeds). -/

/-- Model of CPython's salted string hash: the first argument is the
per-process random seed (`PYTHONHASHSEED`); a fresh process draws a fresh
seed.  Within one process the function is fixed. -/
def pyStringHash (seed : ℕ) (s : String) : ℕ :=
  s.toList.foldl (fun h c => (h * 1000003 + c.toNat) % 2 ^ 61) (seed % 2 ^ 61)

/-- The id assigned by `_extract_tweet_from_element`:
`f"{username}_{hash(text + str(timestamp))}"` (the timestamp is already a
string there, so `str` is the identity). -/
def extractTweetId (seed : ℕ) (username text timestamp : String) : String :=
  username ++ "_" ++ toString (pyStringHash seed (text ++ timestamp))

/-! ## PersistenceStore (`scraper_main.py`, lines 121–373)

The `tweets` table is modelled as a list of rows holding the 18 column
values of one `Tweet` (`tweet_id` is the PRIMARY KEY; `hashtags` &c. are
kept as lists rather than their JSON encodings, which is injective and
irrelevant to the claims).  `INSERT OR REPLACE` replaces the row whose key
matches, or appends a new row.  The `save_tweet` `try/except` returns
`False` and leaves the table unchanged when SQLite raises; success commits
all 18 fields at once. -/

/-- `DataPersistence.save_tweet`: `INSERT OR REPLACE INTO tweets VALUES
(all 18 fields)` followed by `commit`.  All fields of the stored row come
from the one tweet argument. -/
def save_tweet (t : Tweet) (db : List Tweet) : List Tweet :=
  if db.any (fun r => r.tweet_id == t.tweet_id) then
    db.map (fun r => if r.tweet_id == t.tweet_id then t else r)
  else
    db ++ [t]

/-- The optional filters of `DataPersistence.get_tweets`. -/
structure Filters where
  username : Option String := none
  since : Option Int := none
  sentiment : Option String := none
  min_engagement : Option Int := none

/-- Row predicate assembled by `get_tweets`' dynamic `WHERE` clause. -/
def matchesFilters (f : Filters) (t : Tweet) : Bool :=
  (match f.username with | some u => t.username == u | none => true) &&
  (match f.since with | some s => decide (t.timestamp ≥ s) | none => true) &&
  (match f.sentiment with | some l => t.sentiment_label == some l | none => true) &&
  (match f.min_engagement with | some m => decide (t.likes + t.retweets ≥ m) | none => true)

/-- `DataPersistence.get_tweets`: `SELECT * FROM tweets WHERE … ORDER BY
timestamp DESC LIMIT ?`. -/
def get_tweets (db : List Tweet) (f : Filters) (limit : ℕ) : List Tweet :=
  ((db.filter (matchesFilters f)).mergeSort
      (fun a b => decide (b.timestamp ≤ a.timestamp))).take limit

/-- `sentiment or 'neutral'`: Python's `or` falls through to `'neutral'`
when the label is `None` or the empty string. -/
def sentimentKey (l : Option String) : String :=
  match l with
  | none => "neutral"
  | some s => if s = "" then "neutral" else s

/-- Result of `DataPersistence.get_trending_analysis` (the fields the
claims are about; the `top_hashtags`/`top_accounts` lists are built from
the same fetched row set and are not needed by any claim). -/
structure TrendAnalysis where
  total_tweets : ℕ
  sentiment_breakdown : String → ℕ

/-- `DataPersistence.get_trending_analysis`: `SELECT … FROM tweets WHERE
timestamp > ?` with `cutoff = (datetime.now() - timedelta(hours=hours))`,
then one pass over the fetched rows (`sentiment_counts[sentiment or
'neutral'] += 1`).  Note the *strict* comparison in the `WHERE` clause. -/
def get_trending_analysis (db : List Tweet) (now : Int) (hours : ℕ) : TrendAnalysis :=
  let cutoff : Int := now - hours * 3600
  let rows := db.filter (fun t => decide (t.timestamp > cutoff))
  { total_tweets := rows.length
    sentiment_breakdown := fun l =>
      (rows.filter (fun t => sentimentKey t.sentiment_label == l)).length }

/-! ## Orchestrator (`crypto_scraper_orchestrator.py`)

The collaborator results are explicit inputs: for `scrape_account` the
(already `_process_*`-converted) tweets the API call and the Selenium call
would deliver (`none` models an exception caught by the surrounding
`try/except`, which leaves the accumulator unchanged); for
`search_keywords` one such pair per keyword. -/

/-- `CryptoTwitterIntelligence.scrape_account` (lines 172–201): extend with
the API results unless `force_selenium`; then, if still short of
`max_tweets` (or forced), extend with the Selenium results; save every
collected tweet; return the batch.  There is no duplicate filtering.
Returns `(batch, updated store)`. -/
def scrape_account (hasApi force_selenium hasSelenium : Bool)
    (apiResult seleniumResult : Option (List Tweet)) (max_tweets : ℕ)
    (db : List Tweet) : List Tweet × List Tweet :=
  let tweets : List Tweet :=
    if hasApi && !force_selenium then (apiResult.getD []) else []
  let tweets : List Tweet :=
    if (tweets.length < max_tweets || force_selenium) && hasSelenium then
      tweets ++ (seleniumResult.getD [])
    else tweets
  (tweets, tweets.foldl (fun d t => save_tweet t d) db)

/-- The body of `search_keywords`' per-batch loop:

```python
for tweet in tweets:
    if tweet.tweet_id not in seen_ids:
        seen_ids.add(tweet.tweet_id)
        all_tweets.append(tweet)
        self.db.save_tweet(tweet)
```

State: `(seen_ids, all_tweets, db)`. -/
def dedupAppend (seen : List String) (acc : List Tweet) (db : List Tweet) :
    List Tweet → List String × List Tweet × List Tweet
  | [] => (seen, acc, db)
  | t :: ts =>
    if t.tweet_id ∈ seen then dedupAppend seen acc db ts
    else dedupAppend (seen ++ [t.tweet_id]) (acc ++ [t]) (save_tweet t db) ts

/-- State of a `search_keywords` run, with a ghost `stream` field recording
the concatenation of the batches whose records the loop actually iterated
over (in iteration order).  The ghost field instruments the run for
specification only; `seen`, `acc` and `db` evolve exactly as in the code. -/
structure SearchState where
  seen : List String
  acc : List Tweet
  db : List Tweet
  stream : List Tweet

/-- One guarded branch of the per-keyword body of `search_keywords`: if
the guard holds and the collaborator returned a batch (rather than an
exception, `none`, swallowed by the per-keyword `try/except`), run the
dedup-append loop over the batch; the ghost `stream` records the batch. -/
def searchStep (s : SearchState) (res : Option (List Tweet)) (g : Bool) : SearchState :=
  if g then
    match res with
    | none => s
    | some batch =>
      let r := dedupAppend s.seen s.acc s.db batch
      { seen := r.1, acc := r.2.1, db := r.2.2, stream := s.stream ++ batch }
  else s

/-- The `for keyword in keywords` loop of `search_keywords` (lines
203–243).  Per keyword: the API branch (guarded by `self.api_client`),
then the Selenium branch (guarded by `self.selenium_scraper and
len(all_tweets) < max_per_keyword * len(keywords)`).  `totalCap` is
`max_per_keyword * len(keywords)`, computed from the full keyword list. -/
def searchLoop (hasApi hasSelenium : Bool)
    (apiRes selRes : String → Option (List Tweet)) (totalCap : ℕ) :
    List String → SearchState → SearchState
  | [], st => st
  | kw :: rest, st =>
    let st1 := searchStep st (apiRes kw) hasApi
    let st2 := searchStep st1 (selRes kw)
      (hasSelenium && st1.acc.length < totalCap)
    searchLoop hasApi hasSelenium apiRes selRes totalCap rest st2

/-- `CryptoTwitterIntelligence.search_keywords`: run the loop from an empty
`seen_ids`/`all_tweets` over the given keywords and return the final
state (`.acc` is the returned batch). -/
def search_keywords (hasApi hasSelenium : Bool)
    (apiRes selRes : String → Option (List Tweet)) (max_per_keyword : ℕ)
    (keywords : List String) (db : List Tweet) : SearchState :=
  searchLoop hasApi hasSelenium apiRes selRes (max_per_keyword * keywords.length)
    keywords { seen := [], acc := [], db := db, stream := [] }

/-- The summary block of `generate_intelligence_report` (lines 318–348):

```python
analysis = self.db.get_trending_analysis(hours=hours)
since = (datetime.now() - timedelta(hours=hours)).isoformat()
tweets = self.db.get_tweets(filters={'since': since}, limit=10000)
summary = {'total_tweets_analyzed': analysis['total_tweets'],
           'unique_accounts': len(set(t['username'] for t in tweets)),
           'total_engagement': sum(t['likes'] + t['retweets'] for t in tweets)}
```

The two `datetime.now()` calls are modelled as one instant `now`. -/
structure ReportSummary where
  total_tweets_analyzed : ℕ
  unique_accounts : ℕ
  total_engagement : Int

/-- `CryptoTwitterIntelligence.generate_intelligence_report`, restricted to
its `summary` field (the other report fields are derived from the same
`analysis` and `tweets` values and are not needed by any claim). -/
def generate_intelligence_report (db : List Tweet) (now : Int) (hours : ℕ) :
    ReportSummary :=
  let analysis := get_trending_analysis db now hours
  let since : Int := now - hours * 3600
  let tweets := get_tweets db { since := some since } 10000
  { total_tweets_analyzed := analysis.total_tweets
    unique_accounts := (tweets.map (fun t => t.username)).toFinset.card
    total_engagement := (tweets.map (fun t => t.likes + t.retweets)).sum }

/-! ## A concrete tweet constructor, for witnesses and counterexamples -/

/-- A `Tweet` with the given key fields and defaulted remaining fields. -/
def mkTweet (id user : String) (ts likes : Int) : Tweet :=
  { tweet_id := id, username := user, display_name := "", text := "",
    timestamp := ts, likes := likes, retweets := 0, replies := 0,
    views := none, is_verified := false, hashtags := [], mentions := [],
    urls := [], media_urls := [], sentiment_score := none,
    sentiment_label := none, scraped_at := 0, source := "api" }

/-! # Theorems -/

/-! ## C4 — sentiment purity and bounded polarity -/

/-- C4: `SentimentAnalyzer.analyze` is pure — in the embedding it is a
function of the text alone, so two evaluations on identical text coincide —
and after the per-emoji ±0.05 adjustment the final
`max(-1.0, min(1.0, polarity))` clamp keeps the returned polarity inside
`[-1, 1]` for every input text. -/
theorem analyze_pure_and_bounded (text : String) :
    analyze text = analyze text ∧
    -1 ≤ (analyze text).polarity ∧ (analyze text).polarity ≤ 1 := by
  refine ⟨rfl, ?_, ?_⟩
  · exact le_max_left _ _
  · exact max_le (by norm_num) (min_le_left _ _)

/-! ## C6 — browser-scraped record ids across runs

`_extract_tweet_from_element` computes
`tweet_id = f"{username}_{hash(text + str(timestamp))}"` with Python's
built-in `hash`, which is salted per process.  Within one run (one seed)
the id is a deterministic function of `(username, text, timestamp)`, but
two runs of the program draw different seeds and assign different ids to
the same triple — the code contradicts the spec's "stable identifier"
intent (cross-run duplicate handling in the store relies on it). -/

/-- C6: at the concrete triple
`("alice", "gm", "2024-01-01T00:00:00")`, the id is reproducible within a
fixed process seed, but two different process seeds (two runs of the
program) assign different ids to the identical triple. -/
theorem tweetId_depends_on_process_seed :
    extractTweetId 0 "alice" "gm" "2024-01-01T00:00:00" =
      extractTweetId 0 "alice" "gm" "2024-01-01T00:00:00" ∧
    extractTweetId 0 "alice" "gm" "2024-01-01T00:00:00" ≠
      extractTweetId 1 "alice" "gm" "2024-01-01T00:00:00" := by
  exact ⟨rfl, by decide⟩

/-! ## C5 — phrase signals are boolean, word signals are set-based

The code computes
`sum(1 for phrase in phrases if phrase in text_lower)`: each fixed phrase
contributes at most one signal no matter how often it occurs.  The claim
says a phrase is counted per occurrence. -/

/-- C5 counterexample: in
`"golden cross and golden cross"` the positive phrase `"golden cross"`
occurs twice, yet `analyze` reports a single positive signal (no lexicon
word of the text matches, so the phrase branch alone feeds the count);
per-occurrence counting as claimed would give two. -/
theorem phrase_twice_counts_once :
    occurrenceCount (pyLower "golden cross and golden cross").toList
        "golden cross".toList = 2 ∧
    (analyze "golden cross and golden cross").positive_signals = 1 ∧
    (1 : ℕ) ≠ 2 := by
  exact ⟨by decide, by decide, by decide⟩

/-- C5 (amended): the signal counts of `analyze` depend only on *which*
words occur (the word set, multiplicity collapsed by `set(...)`) and on
*which* fixed phrases occur (boolean substring membership), never on how
often a word or phrase is repeated: any two texts agreeing on the word set
and on phrase membership get identical signal counts. -/
theorem analyze_signals_multiplicity_blind (t1 t2 : String)
    (hw : wordSet (pyLower t1) = wordSet (pyLower t2))
    (hp : ∀ p ∈ market_positive, strContains (pyLower t1) p = strContains (pyLower t2) p)
    (hn : ∀ p ∈ market_negative, strContains (pyLower t1) p = strContains (pyLower t2) p) :
    (analyze t1).positive_signals = (analyze t2).positive_signals ∧
    (analyze t1).negative_signals = (analyze t2).negative_signals := by
  have hlp : ∀ lex : List String, lexiconMatches (pyLower t1) lex = lexiconMatches (pyLower t2) lex := by
    intro lex
    unfold lexiconMatches
    rw [hw]
  have hpp : patternMatches (pyLower t1) market_positive
      = patternMatches (pyLower t2) market_positive := by
    unfold patternMatches
    rw [List.filter_congr]
    intro p hpmem
    exact hp p hpmem
  have hpn : patternMatches (pyLower t1) market_negative
      = patternMatches (pyLower t2) market_negative := by
    unfold patternMatches
    rw [List.filter_congr]
    intro p hpmem
    exact hn p hpmem
  constructor
  · show lexiconMatches (pyLower t1) crypto_positive + patternMatches (pyLower t1) market_positive
      = lexiconMatches (pyLower t2) crypto_positive + patternMatches (pyLower t2) market_positive
    rw [hlp, hpp]
  · show lexiconMatches (pyLower t1) crypto_negative + patternMatches (pyLower t1) market_negative
      = lexiconMatches (pyLower t2) crypto_negative + patternMatches (pyLower t2) market_negative
    rw [hlp, hpn]

/-- C5 witness: two texts repeating `golden`/`cross` differently — the
word sets agree and `"golden cross"` occurs in both, so both get one
positive signal. -/
theorem analyze_signals_multiplicity_blind_witness :
    (analyze "golden cross cross golden").positive_signals
        = (analyze "cross golden cross golden cross").positive_signals ∧
    (analyze "golden cross cross golden").negative_signals
        = (analyze "cross golden cross golden cross").negative_signals :=
  analyze_signals_multiplicity_blind
    "golden cross cross golden" "cross golden cross golden cross"
    (by decide) (by decide) (by decide)

/-! ## C9 — windowed aggregation boundary

`get_trending_analysis` fetches with `WHERE timestamp > ?` — a *strict*
comparison — so a post timestamped exactly at `now - hours` is excluded,
while the claim includes it (`createdAt >= now - h`). -/

/-- C9 counterexample: a store holding exactly one post timestamped
exactly at the cutoff `now - 24h` (`now = 0`, timestamp `-86400`).  The
claim says the aggregation covers it (`createdAt ≥ now - h`, boundary
included, so a total of 1); the code's strict `>` yields a total of 0. -/
theorem trending_cutoff_post_excluded :
    (get_trending_analysis [mkTweet "a" "u" (-86400) 0] 0 24).total_tweets = 0 ∧
    ([mkTweet "a" "u" (-86400) 0].filter
        (fun t => decide (t.timestamp ≥ (0 : ℤ) - 24 * 3600))).length = 1 := by
  exact ⟨by decide, by decide⟩

/-- C9 (amended): the windowed aggregation over hours `h` covers exactly
the stored posts with `createdAt > now - h` — *strictly* newer than the
cutoff, a post timestamped exactly at the cutoff excluded — and on a store
holding posts at `now-1h` and `now-30h` the 24-hour total counts the
`now-1h` post and excludes the `now-30h` post. -/
theorem trending_window_strict (db : List Tweet) (now : Int) (hours : ℕ)
    (p p1 p30 : Tweet)
    (hcut : p.timestamp = now - hours * 3600)
    (h1 : p1.timestamp = now - 3600) (h30 : p30.timestamp = now - 108000) :
    (get_trending_analysis db now hours).total_tweets
        = (db.filter (fun t => decide (t.timestamp > now - hours * 3600))).length ∧
    (get_trending_analysis (p :: db) now hours).total_tweets
        = (get_trending_analysis db now hours).total_tweets ∧
    (get_trending_analysis [p1, p30] now 24).total_tweets = 1 := by
  have key : ∀ (l : List Tweet) (h : ℕ),
      (get_trending_analysis l now h).total_tweets
        = (l.filter (fun t => decide (t.timestamp > now - h * 3600))).length :=
    fun l h => rfl
  refine ⟨key db hours, ?_, ?_⟩
  · rw [key, key, List.filter_cons]
    have hfalse : (decide (p.timestamp > now - hours * 3600)) = false := by
      rw [hcut]
      simp
    rw [hfalse]
    simp
  · rw [key]
    have e1 : decide (p1.timestamp > now - (24 : ℕ) * 3600) = true := by
      rw [h1]
      simp only [decide_eq_true_eq]
      push_cast
      omega
    have e30 : decide (p30.timestamp > now - (24 : ℕ) * 3600) = false := by
      rw [h30]
      simp only [decide_eq_false_iff_not]
      push_cast
      omega
    rw [List.filter_cons, List.filter_cons, e1, e30]
    simp

/-- C9 witness: the amended theorem at `now = 200000`, with concrete posts
at the cutoff, at `now-1h` and at `now-30h`. -/
theorem trending_window_strict_witness :
    (get_trending_analysis [] 200000 24).total_tweets
        = (([] : List Tweet).filter
            (fun t => decide (t.timestamp > (200000 : ℤ) - (24 : ℕ) * 3600))).length ∧
    (get_trending_analysis [mkTweet "a" "u" 113600 0] 200000 24).total_tweets
        = (get_trending_analysis [] 200000 24).total_tweets ∧
    (get_trending_analysis [mkTweet "b" "u" 196400 0, mkTweet "c" "u" 92000 0]
        200000 24).total_tweets = 1 :=
  trending_window_strict [] 200000 24
    (mkTweet "a" "u" 113600 0) (mkTweet "b" "u" 196400 0) (mkTweet "c" "u" 92000 0)
    (by decide) (by decide) (by decide)

/-! ## C3 — metric-string parsing truncates, never rounds

Helper lemmas for `pyFloat` and `parse_number`. -/

lemma takeWhile_append_false {α : Type} (p : α → Bool) (l : List α) (x : α) (r : List α)
    (hl : ∀ a ∈ l, p a = true) (hx : p x = false) :
    (l ++ x :: r).takeWhile p = l := by
  induction l with
  | nil => simp [List.takeWhile_cons, hx]
  | cons a t ih =>
    have ha : p a = true := hl a (by simp)
    have ih' := ih (fun b hb => hl b (by simp [hb]))
    simp [List.takeWhile_cons, ha, ih']

lemma dropWhile_append_false {α : Type} (p : α → Bool) (l : List α) (x : α) (r : List α)
    (hl : ∀ a ∈ l, p a = true) (hx : p x = false) :
    (l ++ x :: r).dropWhile p = x :: r := by
  induction l with
  | nil => simp [List.dropWhile_cons, hx]
  | cons a t ih =>
    have ha : p a = true := hl a (by simp)
    have ih' := ih (fun b hb => hl b (by simp [hb]))
    simp [List.dropWhile_cons, ha, ih']

lemma digit_ne_dot {c : Char} (h : c.isDigit = true) : c ≠ '.' := by
  intro he
  rw [he] at h
  exact absurd h (by decide)

lemma pyFloat_split (ip fp : List Char)
    (hip : ∀ c ∈ ip, c.isDigit = true) (hfp : ∀ c ∈ fp, c.isDigit = true)
    (hipne : ip ≠ []) :
    pyFloat (ip ++ '.' :: fp)
      = some ((digitsVal ip : ℚ) + (digitsVal fp : ℚ) / (10 : ℚ) ^ fp.length) := by
  have hall : (ip ++ '.' :: fp).all (fun c => c.isDigit || c = '.') = true := by
    rw [List.all_eq_true]
    intro c hc
    rw [List.mem_append] at hc
    rcases hc with hc | hc
    · simp [hip c hc]
    · rcases List.mem_cons.mp hc with rfl | hc
      · simp
      · simp [hfp c hc]
  have hcip : ip.count '.' = 0 := by
    rw [List.count_eq_zero]
    intro hmem
    exact digit_ne_dot (hip _ hmem) rfl
  have hcfp : fp.count '.' = 0 := by
    rw [List.count_eq_zero]
    intro hmem
    exact digit_ne_dot (hfp _ hmem) rfl
  have hcount : (ip ++ '.' :: fp).count '.' = 1 := by
    rw [List.count_append, hcip, List.count_cons]
    simp [hcfp]
  have htake : (ip ++ '.' :: fp).takeWhile (· ≠ '.') = ip := by
    apply takeWhile_append_false
    · intro a ha
      simp [digit_ne_dot (hip a ha)]
    · simp
  have hdrop : (ip ++ '.' :: fp).dropWhile (· ≠ '.') = '.' :: fp := by
    apply dropWhile_append_false
    · intro a ha
      simp [digit_ne_dot (hip a ha)]
    · simp
  rw [pyFloat]
  rw [hall, hcount]
  simp only [htake, hdrop]
  norm_num
  intro hbad
  exact absurd hbad hipne

lemma pyFloat_digits (ds : List Char)
    (h : ∀ c ∈ ds, c.isDigit = true) (hne : ds ≠ []) :
    pyFloat ds = some (digitsVal ds : ℚ) := by
  have hall : ds.all (fun c => c.isDigit || c = '.') = true := by
    rw [List.all_eq_true]
    intro c hc
    simp [h c hc]
  have hc0 : ds.count '.' = 0 := by
    rw [List.count_eq_zero]
    intro hmem
    exact digit_ne_dot (h _ hmem) rfl
  rw [pyFloat, hall, hc0]
  simp [List.isEmpty_iff, hne]

lemma pyFloat_nonneg (s : List Char) (q : ℚ) (h : pyFloat s = some q) : 0 ≤ q := by
  rw [pyFloat] at h
  dsimp only at h
  split at h
  · exact absurd h (by simp)
  · split at h
    · exact absurd h (by simp)
    · split at h
      · split at h
        · exact absurd h (by simp)
        · rw [Option.some_inj] at h
          rw [← h]
          positivity
      · split at h
        · exact absurd h (by simp)
        · rw [Option.some_inj] at h
          rw [← h]
          positivity

lemma multiplierSplit_fst_nonneg (t : List Char) : 0 ≤ (multiplierSplit t).1 := by
  rw [multiplierSplit]
  split_ifs <;> norm_num

lemma parse_number_nonneg (s : String) : 0 ≤ parse_number s := by
  rw [parse_number]
  dsimp only
  split
  · exact le_refl 0
  · split
    · exact le_refl 0
    · split
      · exact le_refl 0
      · next q hq =>
        rw [Int.floor_nonneg]
        exact mul_nonneg (pyFloat_nonneg _ _ hq)
          (by exact_mod_cast multiplierSplit_fst_nonneg _)

section
set_option maxHeartbeats 1000000

lemma digitDotChars_fixed :
    ∀ c ∈ (['0','1','2','3','4','5','6','7','8','9','.'] : List Char),
      c.toUpper = c ∧ keptChar c = true ∧ c ≠ 'K' ∧ c ≠ 'M' ∧ c ≠ 'B' := by decide

end

lemma contains_append_singleton_ne (l : List Char) (a b : Char)
    (hl : ∀ c ∈ l, c ≠ a) (hab : b ≠ a) : (l ++ [b]).contains a = false := by
  rw [List.contains_eq_any_beq, List.any_append]
  have h1 : l.any (fun x => a == x) = false := by
    rw [List.any_eq_false]
    intro x hx
    simp only [beq_iff_eq]
    exact fun he => hl x hx he.symm
  have h2 : ([b] : List Char).any (fun x => a == x) = false := by
    simp only [List.any_cons, List.any_nil, Bool.or_false]
    rw [beq_eq_false_iff_ne]
    exact fun he => hab he.symm
  rw [h1, h2]
  rfl

lemma filter_ne_append_singleton (l : List Char) (x : Char)
    (hl : ∀ c ∈ l, c ≠ x) : (l ++ [x]).filter (· ≠ x) = l := by
  rw [List.filter_append]
  have h1 : l.filter (· ≠ x) = l := by
    rw [List.filter_eq_self]
    intro c hc
    simp [hl c hc]
  have h2 : ([x] : List Char).filter (· ≠ x) = [] := by simp
  rw [h1, h2, List.append_nil]

lemma strippedUpper_push_wellformed (numStr : String) (suffix : Char)
    (hsfx : suffix = 'K' ∨ suffix = 'M' ∨ suffix = 'B')
    (hchars : ∀ c ∈ numStr.toList,
      c ∈ (['0','1','2','3','4','5','6','7','8','9','.'] : List Char)) :
    strippedUpper (numStr.push suffix) = numStr.toList ++ [suffix] := by
  rw [strippedUpper]
  have hdata : (numStr.push suffix).toList = numStr.toList ++ [suffix] := String.data_push _ _
  rw [hdata, List.map_append, List.filter_append]
  have hmap : numStr.toList.map Char.toUpper = numStr.toList := by
    rw [List.map_congr_left (fun c hc => (digitDotChars_fixed c (hchars c hc)).1)]
    exact List.map_id _
  have hfil : (numStr.toList).filter keptChar = numStr.toList := by
    rw [List.filter_eq_self]
    intro c hc
    exact (digitDotChars_fixed c (hchars c hc)).2.1
  have hup : Char.toUpper suffix = suffix := by
    rcases hsfx with rfl | rfl | rfl <;> decide
  have hkeep : keptChar suffix = true := by
    rcases hsfx with rfl | rfl | rfl <;> decide
  rw [hmap, hfil]
  simp [hup, hkeep]

lemma parse_number_wellformed (numStr : String) (suffix : Char) (mult : ℤ) (q : ℚ)
    (hsfx : (suffix = 'K' ∧ mult = 1000) ∨ (suffix = 'M' ∧ mult = 1000000) ∨
      (suffix = 'B' ∧ mult = 1000000000))
    (hchars : ∀ c ∈ numStr.toList,
      c ∈ (['0','1','2','3','4','5','6','7','8','9','.'] : List Char))
    (hq : pyFloat numStr.toList = some q) :
    parse_number (numStr.push suffix) = ⌊q * (mult : ℚ)⌋ := by
  have hsfx' : suffix = 'K' ∨ suffix = 'M' ∨ suffix = 'B' := by
    rcases hsfx with ⟨h, _⟩ | ⟨h, _⟩ | ⟨h, _⟩
    · exact Or.inl h
    · exact Or.inr (Or.inl h)
    · exact Or.inr (Or.inr h)
  have hstrip := strippedUpper_push_wellformed numStr suffix hsfx' hchars
  have hne : (numStr.push suffix).isEmpty = false := by
    rw [Bool.eq_false_iff]
    intro habs
    rw [String.isEmpty_iff] at habs
    have hd : (numStr.push suffix).data = [] := by rw [habs]
    rw [String.data_push] at hd
    exact absurd hd (by simp)
  have hnoK : ∀ c ∈ numStr.toList, c ≠ 'K' := fun c hc =>
    (digitDotChars_fixed c (hchars c hc)).2.2.1
  have hnoM : ∀ c ∈ numStr.toList, c ≠ 'M' := fun c hc =>
    (digitDotChars_fixed c (hchars c hc)).2.2.2.1
  have hnoB : ∀ c ∈ numStr.toList, c ≠ 'B' := fun c hc =>
    (digitDotChars_fixed c (hchars c hc)).2.2.2.2
  have hsplit : multiplierSplit (numStr.toList ++ [suffix]) = (mult, numStr.toList) := by
    rcases hsfx with ⟨rfl, rfl⟩ | ⟨rfl, rfl⟩ | ⟨rfl, rfl⟩
    · rw [multiplierSplit, if_pos (by simp)]
      rw [filter_ne_append_singleton _ _ hnoK]
    · have cK : (numStr.toList ++ ['M']).contains 'K' = false :=
        contains_append_singleton_ne numStr.toList 'K' 'M' hnoK (by decide)
      rw [multiplierSplit, if_neg (by rw [cK]; simp), if_pos (by simp)]
      rw [filter_ne_append_singleton _ _ hnoM]
    · have cK : (numStr.toList ++ ['B']).contains 'K' = false :=
        contains_append_singleton_ne numStr.toList 'K' 'B' hnoK (by decide)
      have cM : (numStr.toList ++ ['B']).contains 'M' = false :=
        contains_append_singleton_ne numStr.toList 'M' 'B' hnoM (by decide)
      rw [multiplierSplit, if_neg (by rw [cK]; simp), if_neg (by rw [cM]; simp),
        if_pos (by simp)]
      rw [filter_ne_append_singleton _ _ hnoB]
  rw [parse_number, hne]
  dsimp only
  rw [hstrip]
  have hlistne : (numStr.toList ++ [suffix]).isEmpty = false := by
    simp [List.isEmpty_iff]
  rw [hlistne]
  rw [hsplit]
  rw [hq]
  simp

/-- C3 counterexample: for the well-formed engagement string `"1.2346K"`
(`number = 1.2346 = 12346/10^4`, multiplier `K = 1000`), the claimed value
`round(number * multiplier) = round(1234.6) = 1235`, but `_parse_number`
computes `int(float("1.2346") * 1000) = 1234`: `int` truncates toward
zero, it does not round. -/
theorem parse_number_not_round :
    parse_number "1.2346K" = 1234 ∧
    round (((12346 : ℚ) / 10 ^ 4) * 1000) = 1235 ∧ (1234 : ℤ) ≠ 1235 := by
  refine ⟨?_, by norm_num [round_eq], by decide⟩
  have hq : pyFloat "1.2346".toList
      = some ((digitsVal ['1'] : ℚ)
          + (digitsVal ['2','3','4','6'] : ℚ) / (10:ℚ) ^ (['2','3','4','6'] : List Char).length) := by
    have hs : "1.2346".toList = ['1'] ++ '.' :: ['2','3','4','6'] := by decide
    rw [hs]
    exact pyFloat_split ['1'] ['2','3','4','6'] (by decide) (by decide) (by decide)
  have h := parse_number_wellformed "1.2346" 'K' 1000 _ (Or.inl ⟨rfl, rfl⟩) (by decide) hq
  have hpush : ("1.2346" : String).push 'K' = "1.2346K" := by decide
  rw [hpush] at h
  rw [h]
  have d1 : digitsVal ['1'] = 1 := by decide
  have d2 : digitsVal ['2','3','4','6'] = 2346 := by decide
  rw [d1, d2]
  norm_num

/-- C3 (amended): `_parse_number` never returns a negative or missing
value, and on every well-formed `<number><K|M|B>` string (digits with at
most one dot, then one suffix letter) it returns the *truncation toward
zero* `⌊number × multiplier⌋` with `K = 10^3`, `M = 10^6`, `B = 10^9`
(under the exact-arithmetic reading of `float`); malformed, unparseable or
empty strings take the `except`/empty branches, which return 0 and are
covered by the nonnegativity conjunct together with the branch structure
of `parse_number`. -/
theorem parse_number_truncation :
    (∀ s : String, 0 ≤ parse_number s) ∧
    (∀ (numStr : String) (suffix : Char) (mult : ℤ) (q : ℚ),
      ((suffix = 'K' ∧ mult = 1000) ∨ (suffix = 'M' ∧ mult = 1000000) ∨
        (suffix = 'B' ∧ mult = 1000000000)) →
      (∀ c ∈ numStr.toList,
        c ∈ (['0','1','2','3','4','5','6','7','8','9','.'] : List Char)) →
      pyFloat numStr.toList = some q →
      parse_number (numStr.push suffix) = ⌊q * (mult : ℚ)⌋) :=
  ⟨parse_number_nonneg, parse_number_wellformed⟩

/-- C3 witness: the amended theorem evaluated at the malformed string
`"N/A"` (nonnegative, in fact 0) and at the well-formed `"1.2K"`,
which parses to `⌊1.2 * 1000⌋ = 1200`. -/
theorem parse_number_truncation_witness :
    0 ≤ parse_number "N/A" ∧ parse_number "1.2K" = 1200 := by
  constructor
  · exact parse_number_truncation.1 "N/A"
  · have hq : pyFloat "1.2".toList
        = some ((digitsVal ['1'] : ℚ) + (digitsVal ['2'] : ℚ) / (10:ℚ) ^ (['2'] : List Char).length) := by
      have hs : "1.2".toList = ['1'] ++ '.' :: ['2'] := by decide
      rw [hs]
      exact pyFloat_split ['1'] ['2'] (by decide) (by decide) (by decide)
    have h := parse_number_truncation.2 "1.2" 'K' 1000 _ (Or.inl ⟨rfl, rfl⟩) (by decide) hq
    have hpush : ("1.2" : String).push 'K' = "1.2K" := by decide
    rw [hpush] at h
    rw [h]
    have d1 : digitsVal ['1'] = 1 := by decide
    have d2 : digitsVal ['2'] = 2 := by decide
    rw [d1, d2]
    norm_num

/-! ## C2 — API fetch error semantics

The `except Exception` handlers of `search_recent_tweets` and
`get_user_tweets` return the *empty* list: records accumulated from pages
already fetched are discarded, not returned.  No exception propagates
(both functions are total and list-valued in the embedding). -/

/-- C2 counterexample: a collaborator that delivers one page with one
record and a continuation token, then raises on the second page.  The
records accumulated from the pages already fetched are `[mkTweet "42" …]`
(as the one-page run shows), yet `search_recent_tweets` returns `[]` — the
partial result is discarded, contradicting the claimed partial-success
return. -/
theorem search_error_discards_partial :
    search_recent_tweets true
      (fun i => if i = 0 then Except.ok (Page.mk [mkTweet "42" "u" 0 0] true)
        else Except.error ()) 5 = [] ∧
    pagesLoop
      (fun i => if i = 0 then Except.ok (Page.mk [mkTweet "42" "u" 0 0] true)
        else Except.error ()) 0 1 [] = Except.ok [mkTweet "42" "u" 0 0] ∧
    ([mkTweet "42" "u" 0 0] : List Tweet) ≠ [] := by
  refine ⟨?_, ?_, by simp⟩
  · have hloop : pagesLoop
        (fun i => if i = 0 then Except.ok (Page.mk [mkTweet "42" "u" 0 0] true)
          else Except.error ()) 0 5 [] = Except.error () := by
      rw [pagesLoop]
      norm_num
      rw [pagesLoop]
      norm_num
    rw [search_recent_tweets, hloop]
    simp
  · rw [pagesLoop]
    norm_num
    rw [pagesLoop]
    norm_num


/-- C2 (amended): for both fetch operations, any error during a page fetch
(or during the user lookup) aborts collection and returns the *empty*
list, discarding the records accumulated so far; when no error occurs the
accumulated records are returned; no exception propagates to the caller.
-/
theorem fetchers_swallow_errors
    (fetch : ℕ → Except Unit Page) (max_results : ℕ)
    (lookup : Except Unit (Option ℕ)) (uid : ℕ) (e : Unit) (l : List Tweet) :
    (pagesLoop fetch 0 max_results [] = Except.error e →
      search_recent_tweets true fetch max_results = [] ∧
      get_user_tweets true (Except.ok (some uid)) fetch max_results = []) ∧
    (pagesLoop fetch 0 max_results [] = Except.ok l →
      search_recent_tweets true fetch max_results = l ∧
      get_user_tweets true (Except.ok (some uid)) fetch max_results = l) ∧
    get_user_tweets true (Except.error e) fetch max_results = [] ∧
    get_user_tweets true (Except.ok none) fetch max_results = [] := by
  refine ⟨?_, ?_, ?_, ?_⟩
  · intro h
    constructor
    · rw [search_recent_tweets, h]
      simp
    · rw [get_user_tweets, h]
      simp
  · intro h
    constructor
    · rw [search_recent_tweets, h]
      simp
    · rw [get_user_tweets, h]
      simp
  · rw [get_user_tweets]
    simp
  · rw [get_user_tweets]
    simp


/-- C2 witness: the amended theorem applied to an always-raising
collaborator, to one whose first page is empty, and to a raising user
lookup. -/
theorem fetchers_swallow_errors_witness :
    search_recent_tweets true (fun _ => Except.error ()) 3 = [] ∧
    get_user_tweets true (Except.ok (some 7)) (fun _ => Except.error ()) 3 = [] ∧
    search_recent_tweets true (fun _ => Except.ok (Page.mk [] false)) 3 = [] ∧
    get_user_tweets true (Except.error ()) (fun _ => Except.error ()) 3 = [] := by
  have herr : pagesLoop (fun _ => Except.error ()) 0 3 [] = Except.error () := by
    rw [pagesLoop]
    norm_num
  have hok : pagesLoop (fun _ : ℕ => Except.ok (Page.mk ([] : List Tweet) false)) 0 3 []
      = Except.ok [] := by
    rw [pagesLoop]
    norm_num
  have h1 := (fetchers_swallow_errors (fun _ => Except.error ()) 3 (Except.error ()) 7 () []).1 herr
  have h2 := (fetchers_swallow_errors (fun _ => Except.ok (Page.mk [] false)) 3
    (Except.error ()) 7 () []).2.1 hok
  have h3 := (fetchers_swallow_errors (fun _ => Except.error ()) 3 (Except.error ()) 7 () []).2.2.1
  exact ⟨h1.1, h1.2, h2.1, h3⟩

/-! ## C7 — upsert is insert-or-fully-overwrite, last writer wins

Helper lemmas about `save_tweet` (`INSERT OR REPLACE` keyed by the
PRIMARY KEY `tweet_id`).  The store invariant — at most one row per id —
is the `Nodup` hypothesis below; SQLite enforces it via the PRIMARY KEY.
-/

lemma countP_id_le_one (db : List Tweet) (x : String)
    (hnd : (db.map Tweet.tweet_id).Nodup) :
    db.countP (fun r => r.tweet_id == x) ≤ 1 := by
  induction db with
  | nil => simp
  | cons r rest ih =>
    rw [List.map_cons, List.nodup_cons] at hnd
    rw [List.countP_cons]
    by_cases hr : r.tweet_id = x
    · have h0 : rest.countP (fun r => r.tweet_id == x) = 0 := by
        rw [List.countP_eq_zero]
        intro y hy
        simp only [beq_iff_eq]
        intro hyx
        exact hnd.1 (List.mem_map.mpr ⟨y, hy, hyx.trans hr.symm⟩)
      simp [h0, hr]
    · simp [hr, ih hnd.2]

lemma replace_preserves_ids (t : Tweet) (db : List Tweet) :
    (db.map (fun r => if r.tweet_id == t.tweet_id then t else r)).map Tweet.tweet_id
      = db.map Tweet.tweet_id := by
  rw [List.map_map]
  apply List.map_congr_left
  intro r _
  show (if (r.tweet_id == t.tweet_id) = true then t else r).tweet_id = r.tweet_id
  split
  · next hb => exact (beq_iff_eq.mp hb).symm
  · rfl

lemma save_tweet_nodup (t : Tweet) (db : List Tweet)
    (h : (db.map Tweet.tweet_id).Nodup) :
    ((save_tweet t db).map Tweet.tweet_id).Nodup := by
  rw [save_tweet]
  split
  · rw [replace_preserves_ids]
    exact h
  · next hp =>
    rw [Bool.not_eq_true] at hp
    rw [List.any_eq_false] at hp
    rw [List.map_append, List.map_cons, List.map_nil, List.nodup_append]
    refine ⟨h, List.nodup_singleton _, ?_⟩
    intro x hx hx2
    rw [List.mem_map] at hx
    obtain ⟨r, hr, hrid⟩ := hx
    have hne := hp r hr
    simp only [beq_iff_eq] at hne
    simp only [List.mem_singleton] at hx2
    exact hne (hrid ▸ hx2)

lemma save_countP_self (t : Tweet) (db : List Tweet)
    (hnd : (db.map Tweet.tweet_id).Nodup) :
    (save_tweet t db).countP (fun r => r.tweet_id == t.tweet_id) = 1 := by
  rw [save_tweet]
  split
  · next hp =>
    have hmap : (db.map (fun r => if r.tweet_id == t.tweet_id then t else r)).countP
        (fun r => r.tweet_id == t.tweet_id)
        = db.countP (fun r => r.tweet_id == t.tweet_id) := by
      rw [List.countP_map]
      apply List.countP_congr
      intro x _
      have hb : ((if (x.tweet_id == t.tweet_id) = true then t else x).tweet_id == t.tweet_id)
          = (x.tweet_id == t.tweet_id) := by
        by_cases hx : (x.tweet_id == t.tweet_id) = true
        · rw [if_pos hx, hx]
          simp
        · rw [if_neg hx]
      show ((if (x.tweet_id == t.tweet_id) = true then t else x).tweet_id == t.tweet_id)
          = true ↔ (x.tweet_id == t.tweet_id) = true
      rw [hb]
    rw [hmap]
    have hle := countP_id_le_one db t.tweet_id hnd
    have hge : 0 < db.countP (fun r => r.tweet_id == t.tweet_id) := by
      rw [List.countP_pos_iff]
      rw [List.any_eq_true] at hp
      obtain ⟨r, hr, hrt⟩ := hp
      exact ⟨r, hr, hrt⟩
    omega
  · next hp =>
    rw [Bool.not_eq_true, List.any_eq_false] at hp
    rw [List.countP_append, List.countP_cons]
    have h0 : db.countP (fun r => r.tweet_id == t.tweet_id) = 0 := by
      rw [List.countP_eq_zero]
      exact fun y hy => by simp [hp y hy]
    simp [h0]

lemma save_mem_id (t : Tweet) (db : List Tweet) (r : Tweet)
    (hmem : r ∈ save_tweet t db) (hid : r.tweet_id = t.tweet_id) : r = t := by
  rw [save_tweet] at hmem
  split at hmem
  · rw [List.mem_map] at hmem
    obtain ⟨x, _, hfx⟩ := hmem
    by_cases hx : (x.tweet_id == t.tweet_id) = true
    · rw [if_pos hx] at hfx
      exact hfx.symm
    · rw [if_neg hx] at hfx
      simp only [beq_iff_eq] at hx
      rw [hfx] at hx
      exact absurd hid hx
  · next hp =>
    rw [Bool.not_eq_true, List.any_eq_false] at hp
    rw [List.mem_append, List.mem_singleton] at hmem
    rcases hmem with hmem | rfl
    · have hne := hp r hmem
      simp only [beq_iff_eq] at hne
      exact absurd hid hne
    · rfl

lemma save_filter_other (t : Tweet) (db : List Tweet) (k : String)
    (hk : k ≠ t.tweet_id) :
    (save_tweet t db).filter (fun r => r.tweet_id == k)
      = db.filter (fun r => r.tweet_id == k) := by
  rw [save_tweet]
  split
  · rw [List.filter_map]
    have hcongr : db.filter ((fun r => r.tweet_id == k) ∘
        (fun r => if r.tweet_id == t.tweet_id then t else r))
        = db.filter (fun r => r.tweet_id == k) := by
      apply List.filter_congr
      intro x _
      show ((if (x.tweet_id == t.tweet_id) = true then t else x).tweet_id == k)
          = (x.tweet_id == k)
      by_cases hx : (x.tweet_id == t.tweet_id) = true
      · rw [if_pos hx]
        rw [beq_iff_eq] at hx
        rw [hx]
      · rw [if_neg hx]
    rw [hcongr]
    have hmapid : (db.filter (fun r => r.tweet_id == k)).map
        (fun r => if r.tweet_id == t.tweet_id then t else r)
        = (db.filter (fun r => r.tweet_id == k)).map id := by
      apply List.map_congr_left
      intro x hx
      rw [List.mem_filter] at hx
      have hx2 := hx.2
      simp only [beq_iff_eq] at hx2
      have hxt : ¬ (x.tweet_id == t.tweet_id) = true := by
        simp only [beq_iff_eq]
        rw [hx2]
        exact hk
      rw [if_neg hxt]
      rfl
    rw [hmapid, List.map_id]
  · rw [List.filter_append]
    have h1 : ([t] : List Tweet).filter (fun r => r.tweet_id == k) = [] := by
      simp only [List.filter_cons, List.filter_nil]
      rw [if_neg (by simp only [beq_iff_eq]; exact fun he => hk he.symm)]
    rw [h1, List.append_nil]


/-- C7: starting from any store whose ids are distinct (the PRIMARY KEY
invariant), saving `t1` and then `t2` with the same id leaves exactly one
row for that id; that row is `t2` itself, i.e. every one of its 18 fields
comes from the later-processed record; and rows under any other id are
untouched.  `save_tweet` writes the whole 18-field row in a single
`INSERT OR REPLACE` + `commit` (and its `except` path returns `False`
leaving the store unchanged), so no record is ever partially written: in
the model a row is only ever inserted whole. -/
theorem save_tweet_last_writer_wins (db : List Tweet) (t1 t2 : Tweet)
    (hid : t1.tweet_id = t2.tweet_id)
    (hnd : (db.map Tweet.tweet_id).Nodup) :
    (save_tweet t2 (save_tweet t1 db)).countP
        (fun r => r.tweet_id == t2.tweet_id) = 1 ∧
    (∀ r ∈ save_tweet t2 (save_tweet t1 db), r.tweet_id = t2.tweet_id → r = t2) ∧
    (∀ k, k ≠ t2.tweet_id →
      (save_tweet t2 (save_tweet t1 db)).filter (fun r => r.tweet_id == k)
        = db.filter (fun r => r.tweet_id == k)) := by
  have hnd1 : ((save_tweet t1 db).map Tweet.tweet_id).Nodup := save_tweet_nodup t1 db hnd
  refine ⟨save_countP_self t2 _ hnd1, ?_, ?_⟩
  · intro r hr hridr
    exact save_mem_id t2 _ r hr hridr
  · intro k hk
    rw [save_filter_other t2 _ k hk]
    rw [save_filter_other t1 db k (by rw [hid]; exact hk)]


/-- C7 witness: the theorem at the empty store with two concrete records
sharing id `"x"`. -/
theorem save_tweet_last_writer_wins_witness :
    (save_tweet (mkTweet "x" "u2" 1 9) (save_tweet (mkTweet "x" "u1" 0 5) [])).countP
        (fun r => r.tweet_id == (mkTweet "x" "u2" 1 9).tweet_id) = 1 ∧
    (∀ r ∈ save_tweet (mkTweet "x" "u2" 1 9) (save_tweet (mkTweet "x" "u1" 0 5) []),
      r.tweet_id = (mkTweet "x" "u2" 1 9).tweet_id → r = mkTweet "x" "u2" 1 9) ∧
    (∀ k, k ≠ (mkTweet "x" "u2" 1 9).tweet_id →
      (save_tweet (mkTweet "x" "u2" 1 9) (save_tweet (mkTweet "x" "u1" 0 5) [])).filter
          (fun r => r.tweet_id == k)
        = ([] : List Tweet).filter (fun r => r.tweet_id == k)) :=
  save_tweet_last_writer_wins [] (mkTweet "x" "u1" 0 5) (mkTweet "x" "u2" 1 9)
    rfl (by decide)

/-! ## C1 — RateLimiter burst blocking and the sliding-window bound

Helper lemmas: a burst of identical arrival times threads through
`wait_if_needed` without pruning; below the quota no call blocks; at the
quota the call blocks until `oldest + window + 1`, clears the deque and
records the pre-wait arrival time. -/

lemma dropWhile_of_all_false {p : ℚ → Bool} : ∀ {l : List ℚ}, (∀ c ∈ l, p c = false) →
    l.dropWhile p = l
  | [], _ => rfl
  | c :: rest, h => by
    rw [List.dropWhile_cons, h c (by simp)]
    simp

lemma wait_no_block (mc : ℕ) (w t : ℚ) (j : ℕ) (hj : j < mc) (hw : 0 ≤ w) :
    wait_if_needed mc w (List.replicate j t) t = some (List.replicate (j+1) t, t) := by
  rw [wait_if_needed]
  have hdrop : (List.replicate j t).dropWhile (fun c => decide (c < t - w))
      = List.replicate j t := by
    apply dropWhile_of_all_false
    intro c hc
    rw [List.eq_of_mem_replicate hc]
    simp only [decide_eq_false_iff_not]
    intro habs
    linarith
  simp only [hdrop, List.length_replicate]
  rw [if_neg (by omega)]
  rw [List.replicate_succ']

lemma wait_blocked (mc : ℕ) (w t : ℚ) (hmc : 1 ≤ mc) (hw : 0 < w) :
    wait_if_needed mc w (List.replicate mc t) t = some ([t], t + w + 1) := by
  rw [wait_if_needed]
  have hdrop : (List.replicate mc t).dropWhile (fun c => decide (c < t - w))
      = List.replicate mc t := by
    apply dropWhile_of_all_false
    intro c hc
    rw [List.eq_of_mem_replicate hc]
    simp only [decide_eq_false_iff_not]
    intro habs
    linarith
  simp only [hdrop, List.length_replicate]
  rw [if_pos (le_refl mc)]
  obtain ⟨m, rfl⟩ : ∃ m, mc = m + 1 := ⟨mc - 1, by omega⟩
  rw [List.replicate_succ]
  dsimp only
  rw [if_pos (by linarith : (0:ℚ) < w - (t - t) + 1)]
  congr 2
  ring

lemma runCalls_burst_aux (mc : ℕ) (w t : ℚ) (hmc : 1 ≤ mc) (hw : 0 < w) :
    ∀ k j, j + k = mc →
      runCalls mc w (List.replicate j t) (List.replicate k t ++ [t])
        = some ([t], List.replicate k t ++ [t + w + 1]) := by
  intro k
  induction k with
  | zero =>
    intro j hj
    have hj' : j = mc := by omega
    subst hj'
    simp only [List.replicate_zero, List.nil_append]
    rw [runCalls, wait_blocked _ w t hmc hw]
    rfl
  | succ m ih =>
    intro j hj
    rw [List.replicate_succ, List.cons_append, runCalls]
    rw [wait_no_block mc w t j (by omega) (le_of_lt hw)]
    dsimp only
    rw [ih (j+1) (by omega)]
    simp [List.replicate_succ]


/-- C1 (amended): for every configuration with `maxCalls ≥ 1` and
`windowSeconds > 0`, a rapid burst of `maxCalls + 1` calls at one instant
`t` has its first `maxCalls` calls complete immediately at `t` and its
`(maxCalls+1)`-th call block strictly (`t < t + w + 1`) until
`oldestRemaining + windowSeconds + 1` — one second *past* the claimed
`oldestRemaining + windowSeconds` — after which the window is cleared and
the pre-wait arrival timestamp `t` (not the wake-up time) is recorded as
the sole deque entry. -/
theorem rateLimiter_burst_blocks (mc : ℕ) (w t : ℚ) (hmc : 1 ≤ mc) (hw : 0 < w) :
    runCalls mc w [] (List.replicate (mc + 1) t)
      = some ([t], List.replicate mc t ++ [t + w + 1]) ∧
    t < t + w + 1 := by
  constructor
  · have h := runCalls_burst_aux mc w t hmc hw mc 0 (by omega)
    rw [List.replicate_succ']
    simpa using h
  · linarith


/-- C1 witness: the amended theorem at `maxCalls = 2`,
`windowSeconds = 10`, burst instant `t = 0`: completions `[0, 0, 11]` and
final deque `[0]`. -/
theorem rateLimiter_burst_blocks_witness :
    runCalls 2 10 [] (List.replicate 3 (0:ℚ))
      = some ([0], List.replicate 2 (0:ℚ) ++ [0 + 10 + 1]) ∧
    (0:ℚ) < 0 + 10 + 1 :=
  rateLimiter_burst_blocks 2 10 0 (by norm_num) (by norm_num)


/-- C1 counterexample: with `maxCalls = 2`, `windowSeconds = 10`, the
admissible arrival sequence `0, 0, 0, 11, 11` yields completion times
`0, 0, 11, 11, 11`.  The third call wakes at `11 = oldest + window + 1`,
not at the claimed `oldest + window = 10`; and because the blocked call
records its stale pre-wait timestamp `0` — which is pruned immediately
afterwards — three calls complete inside the sliding window `(1, 11]` of
length `windowSeconds`, exceeding `maxCalls = 2`.  Both the
`sleepUntil = oldestRemaining + windowSeconds` clause and the
never-more-than-`maxCalls`-per-window clause of the claim are false. -/
theorem rateLimiter_sliding_window_violated :
    runCalls 2 10 [] [0, 0, 0, 11, 11] = some ([11, 11], [0, 0, 11, 11, 11]) ∧
    admissibleRun [0, 0, 0, 11, 11] [0, 0, 11, 11, 11] = true ∧
    ([0, 0, 11, 11, 11] : List ℚ).countP (fun c => decide (1 < c ∧ c ≤ 1 + 10)) = 3 ∧
    ¬ (3 ≤ 2) ∧
    (11 : ℚ) ≠ 0 + 10 := by
  have s1 : wait_if_needed 2 10 [] (0:ℚ) = some ([0], 0) := by
    rw [wait_if_needed]
    norm_num
  have s2 : wait_if_needed 2 10 [(0:ℚ)] 0 = some ([0, 0], 0) := by
    rw [wait_if_needed]
    have hdrop : ([(0:ℚ)]).dropWhile (fun c => decide (c < 0 - 10)) = [0] := by
      apply dropWhile_of_all_false
      intro c hc
      simp only [List.mem_cons, List.not_mem_nil, or_false] at hc
      subst hc
      simp only [decide_eq_false_iff_not]
      norm_num
    rw [hdrop]
    norm_num
  have s3 : wait_if_needed 2 10 [(0:ℚ), 0] 0 = some ([0], 11) := by
    rw [wait_if_needed]
    have hdrop : ([(0:ℚ), 0]).dropWhile (fun c => decide (c < 0 - 10)) = [0, 0] := by
      apply dropWhile_of_all_false
      intro c hc
      simp only [List.mem_cons, List.not_mem_nil, or_false] at hc
      rcases hc with rfl | rfl <;>
        · simp only [decide_eq_false_iff_not]
          norm_num
    rw [hdrop]
    have hlen : ([(0:ℚ), 0]).length ≥ 2 := by norm_num
    rw [if_pos hlen]
    dsimp only
    rw [if_pos (by norm_num : (0:ℚ) < 10 - (0 - 0) + 1)]
    norm_num
  have s4 : wait_if_needed 2 10 [(0:ℚ)] 11 = some ([11], 11) := by
    rw [wait_if_needed]
    have hdrop : ([(0:ℚ)]).dropWhile (fun c => decide (c < 11 - 10)) = [] := by
      rw [List.dropWhile_cons]
      norm_num
    rw [hdrop]
    norm_num
  have s5 : wait_if_needed 2 10 [(11:ℚ)] 11 = some ([11, 11], 11) := by
    rw [wait_if_needed]
    have hdrop : ([(11:ℚ)]).dropWhile (fun c => decide (c < 11 - 10)) = [11] := by
      rw [List.dropWhile_cons]
      norm_num
    rw [hdrop]
    norm_num
  refine ⟨?_, ?_, ?_, by omega, by norm_num⟩
  · rw [runCalls, s1]
    dsimp only
    rw [runCalls, s2]
    dsimp only
    rw [runCalls, s3]
    dsimp only
    rw [runCalls, s4]
    dsimp only
    rw [runCalls, s5]
    rfl
  · simp only [admissibleRun, Bool.and_eq_true, decide_eq_true_eq]
    norm_num
  · simp only [List.countP_cons, List.countP_nil]
    norm_num

/-! ## C8 — in-run deduplication, first occurrence wins

`search_keywords` threads a `seen_ids` set and appends only unseen ids —
first occurrence wins.  `scrape_account`, also cited by the claim, has no
such filtering: it concatenates the API batch and the Selenium batch
verbatim. -/

lemma take_one_append {α : Type} (xs ys : List α) (h : xs ≠ []) :
    (xs ++ ys).take 1 = xs.take 1 := by
  cases xs with
  | nil => exact absurd rfl h
  | cons a t => simp

lemma filter_id_ne_nil_iff (l : List Tweet) (i : String) :
    l.filter (fun t => t.tweet_id == i) ≠ [] ↔ i ∈ l.map Tweet.tweet_id := by
  rw [Ne, List.filter_eq_nil_iff]
  constructor
  · intro h
    by_contra hmem
    apply h
    intro t ht
    simp only [beq_iff_eq]
    intro he
    exact hmem (List.mem_map.mpr ⟨t, ht, he⟩)
  · intro hmem h
    rw [List.mem_map] at hmem
    obtain ⟨t, ht, hid⟩ := hmem
    exact h t ht (by simp [beq_iff_eq, hid])

/-- The dedup invariant: `acc` holds the first occurrence of each id of
`stream`, and `seen` holds exactly the ids of `stream`. -/
def DedupInv (seen : List String) (acc stream : List Tweet) : Prop :=
  (∀ i, acc.filter (fun t => t.tweet_id == i)
      = (stream.filter (fun t => t.tweet_id == i)).take 1) ∧
  (∀ i, i ∈ seen ↔ i ∈ stream.map Tweet.tweet_id)

lemma dedupInv_extend (seen : List String) (acc stream : List Tweet) (t : Tweet)
    (hinv : DedupInv seen acc stream) (hmem : t.tweet_id ∈ seen) :
    DedupInv seen acc (stream ++ [t]) := by
  obtain ⟨h1, h2⟩ := hinv
  constructor
  · intro i
    rw [List.filter_append]
    by_cases hci : t.tweet_id = i
    · have hne : stream.filter (fun t => t.tweet_id == i) ≠ [] := by
        rw [filter_id_ne_nil_iff]
        exact (h2 i).mp (hci ▸ hmem)
      rw [take_one_append _ _ hne]
      exact h1 i
    · have : ([t] : List Tweet).filter (fun x => x.tweet_id == i) = [] := by
        simp [beq_iff_eq, hci]
      rw [this, List.append_nil]
      exact h1 i
  · intro i
    rw [List.map_append, List.mem_append]
    constructor
    · intro hi
      exact Or.inl ((h2 i).mp hi)
    · intro hi
      rcases hi with hi | hi
      · exact (h2 i).mpr hi
      · simp only [List.map_cons, List.map_nil, List.mem_singleton] at hi
        exact hi ▸ hmem

lemma dedupInv_new (seen : List String) (acc stream : List Tweet) (t : Tweet)
    (hinv : DedupInv seen acc stream) (hmem : t.tweet_id ∉ seen) :
    DedupInv (seen ++ [t.tweet_id]) (acc ++ [t]) (stream ++ [t]) := by
  obtain ⟨h1, h2⟩ := hinv
  constructor
  · intro i
    rw [List.filter_append, List.filter_append]
    by_cases hci : t.tweet_id = i
    · have hnil : stream.filter (fun x => x.tweet_id == i) = [] := by
        by_contra hne
        exact hmem (hci ▸ ((h2 i).mpr ((filter_id_ne_nil_iff stream i).mp hne)))
      have hacc : acc.filter (fun x => x.tweet_id == i) = [] := by
        rw [h1 i, hnil]
        rfl
      rw [hacc, hnil]
      simp
      rw [List.filter_cons]
      split <;> simp
    · have hsing : ([t] : List Tweet).filter (fun x => x.tweet_id == i) = [] := by
        simp [beq_iff_eq, hci]
      rw [hsing, List.append_nil, List.append_nil]
      exact h1 i
  · intro i
    rw [List.mem_append, List.map_append, List.mem_append]
    simp only [List.mem_singleton, List.map_cons, List.map_nil, List.mem_singleton]
    constructor
    · intro hi
      rcases hi with hi | hi
      · exact Or.inl ((h2 i).mp hi)
      · exact Or.inr hi
    · intro hi
      rcases hi with hi | hi
      · exact Or.inl ((h2 i).mpr hi)
      · exact Or.inr hi

lemma dedupAppend_inv (ts : List Tweet) :
    ∀ (seen : List String) (acc db stream : List Tweet),
      DedupInv seen acc stream →
      DedupInv (dedupAppend seen acc db ts).1 (dedupAppend seen acc db ts).2.1
        (stream ++ ts) := by
  induction ts with
  | nil =>
    intro seen acc db stream hinv
    rw [dedupAppend, List.append_nil]
    exact hinv
  | cons t rest ih =>
    intro seen acc db stream hinv
    rw [dedupAppend]
    by_cases hmem : t.tweet_id ∈ seen
    · rw [if_pos hmem]
      have := ih seen acc db (stream ++ [t]) (dedupInv_extend seen acc stream t hinv hmem)
      rwa [List.append_assoc, List.singleton_append] at this
    · rw [if_neg hmem]
      have := ih (seen ++ [t.tweet_id]) (acc ++ [t]) (save_tweet t db) (stream ++ [t])
        (dedupInv_new seen acc stream t hinv hmem)
      rwa [List.append_assoc, List.singleton_append] at this

lemma searchStep_inv (s : SearchState) (res : Option (List Tweet)) (g : Bool)
    (hs : DedupInv s.seen s.acc s.stream) :
    DedupInv (searchStep s res g).seen (searchStep s res g).acc
      (searchStep s res g).stream := by
  rw [searchStep.eq_def]
  by_cases hg : g = true
  · rw [if_pos hg]
    cases res with
    | none => exact hs
    | some batch => exact dedupAppend_inv batch s.seen s.acc s.db s.stream hs
  · rw [if_neg hg]
    exact hs

lemma searchLoop_inv (hasApi hasSelenium : Bool)
    (apiRes selRes : String → Option (List Tweet)) (totalCap : ℕ) :
    ∀ (kws : List String) (st : SearchState),
      DedupInv st.seen st.acc st.stream →
      DedupInv (searchLoop hasApi hasSelenium apiRes selRes totalCap kws st).seen
        (searchLoop hasApi hasSelenium apiRes selRes totalCap kws st).acc
        (searchLoop hasApi hasSelenium apiRes selRes totalCap kws st).stream := by
  intro kws
  induction kws with
  | nil =>
    intro st hinv
    rw [searchLoop]
    exact hinv
  | cons kw rest ih =>
    intro st hinv
    rw [searchLoop]
    exact ih _ (searchStep_inv _ _ _ (searchStep_inv _ _ _ hinv))


/-- C8 (amended, for `search_keywords`): for every keyword list and
collaborator behaviour, the returned batch holds, for each id, exactly the
*first* record with that id among the records the loop iterated over (the
ghost `stream`), later occurrences dropped silently — `filter` by any id
equals `take 1` of the stream's filter — and consequently the batch's ids
are pairwise distinct. -/
theorem search_keywords_first_wins (hasApi hasSelenium : Bool)
    (apiRes selRes : String → Option (List Tweet)) (max_per_keyword : ℕ)
    (keywords : List String) (db : List Tweet) :
    (∀ i,
      (search_keywords hasApi hasSelenium apiRes selRes max_per_keyword keywords db).acc.filter
          (fun t => t.tweet_id == i)
        = ((search_keywords hasApi hasSelenium apiRes selRes max_per_keyword
              keywords db).stream.filter (fun t => t.tweet_id == i)).take 1) ∧
    ((search_keywords hasApi hasSelenium apiRes selRes max_per_keyword
        keywords db).acc.map Tweet.tweet_id).Nodup := by
  have hinv0 : DedupInv ([] : List String) ([] : List Tweet) ([] : List Tweet) := by
    constructor
    · intro i
      rfl
    · intro i
      simp
  have h := searchLoop_inv hasApi hasSelenium apiRes selRes
    (max_per_keyword * keywords.length) keywords
    { seen := [], acc := [], db := db, stream := [] } hinv0
  rw [search_keywords]
  refine ⟨h.1, ?_⟩
  rw [List.nodup_iff_count_le_one]
  intro i
  rw [List.count_eq_countP, List.countP_map]
  have hcp : (searchLoop hasApi hasSelenium apiRes selRes
      (max_per_keyword * keywords.length) keywords
      { seen := [], acc := [], db := db, stream := [] }).acc.countP
        (fun t => t.tweet_id == i)
      ≤ 1 := by
    rw [List.countP_eq_length_filter]
    rw [h.1 i]
    exact le_trans (List.length_take_le 1 _) (le_refl 1)
  refine le_trans (le_of_eq ?_) hcp
  apply List.countP_congr
  intro t _
  constructor
  · intro ht
    exact ht
  · intro ht
    exact ht


/-- C8 counterexample (for `scrape_account`, cited by the claim):
`scrape_account` applies no in-run dedup to the batch it returns.  With an
API result containing the same id twice (e.g. a pagination overlap), the
returned batch contains two records with that id, not exactly one. -/
theorem scrape_account_no_dedup :
    (scrape_account true false false
        (some [mkTweet "d" "u" 0 0, mkTweet "d" "u" 0 0]) none 2 []).1
      = [mkTweet "d" "u" 0 0, mkTweet "d" "u" 0 0] ∧
    ((scrape_account true false false
        (some [mkTweet "d" "u" 0 0, mkTweet "d" "u" 0 0]) none 2 []).1.filter
        (fun t => t.tweet_id == "d")).length = 2 ∧
    ¬ ((2 : ℕ) ≤ 1) := by
  exact ⟨by decide, by decide, by decide⟩

/-! ## C10 — report summary basis vs. total_tweets_analyzed

`generate_intelligence_report` takes `total_tweets_analyzed` from
`get_trending_analysis` (`timestamp > cutoff`, unlimited) but computes
`unique_accounts`/`total_engagement` from `get_tweets(since, limit=10000)`
(`timestamp >= since`, newest 10000 only). -/

lemma take_of_sorted_countP {l : List Tweet} {c : Int} :
    ∀ {n : ℕ},
      l.Pairwise (fun a b => b.timestamp ≤ a.timestamp) →
      n ≤ l.countP (fun t => decide (t.timestamp > c)) →
      ∀ b ∈ l.take n, b.timestamp > c := by
  induction l with
  | nil =>
    intro n _ _ b hb
    simp at hb
  | cons a tl ih =>
    intro n hsort hcount b hb
    rw [List.pairwise_cons] at hsort
    obtain ⟨ha, htl⟩ := hsort
    cases n with
    | zero => simp at hb
    | succ m =>
      have hpa : a.timestamp > c := by
        by_contra hno
        push_neg at hno
        have h0 : (a :: tl).countP (fun t => decide (t.timestamp > c)) = 0 := by
          rw [List.countP_eq_zero]
          intro x hx
          simp only [decide_eq_true_eq, not_lt]
          rcases List.mem_cons.mp hx with rfl | hx
          · exact hno
          · exact le_trans (ha x hx) hno
        omega
      rw [List.take_succ_cons] at hb
      rcases List.mem_cons.mp hb with rfl | hb
      · exact hpa
      · have hcount' : m ≤ tl.countP (fun t => decide (t.timestamp > c)) := by
          rw [List.countP_cons] at hcount
          have hpa' : (decide (a.timestamp > c)) = true := by
            simp [hpa]
          rw [hpa', if_pos rfl] at hcount
          omega
        exact ih htl hcount' b hb

lemma matchesFilters_since (s : Int) (t : Tweet) :
    matchesFilters { since := some s } t = decide (t.timestamp ≥ s) := by
  rw [matchesFilters]
  simp

lemma get_tweets_since (db : List Tweet) (s : Int) (limit : ℕ) :
    get_tweets db { since := some s } limit
      = ((db.filter (fun t => decide (t.timestamp ≥ s))).mergeSort
          (fun a b => decide (b.timestamp ≤ a.timestamp))).take limit := by
  rw [get_tweets]
  rw [List.filter_congr (fun t _ => matchesFilters_since s t)]


/-- C10 (amended): `unique_accounts` and `total_engagement` are computed
from the at most 10,000 most recent posts with `timestamp ≥ cutoff`, while
`total_tweets_analyzed` counts exactly the posts with `timestamp >
cutoff` (strict — not every post of the `≥`-window); and whenever more
than 10,000 posts lie strictly inside the window, the summary basis is a
proper sub-collection of the counted posts: every basis post is counted
and the basis is strictly smaller. -/
theorem report_basis_vs_counted (db : List Tweet) (now : Int) (hours : ℕ) :
    (generate_intelligence_report db now hours).total_tweets_analyzed
        = (db.filter (fun t => decide (t.timestamp > now - hours * 3600))).length ∧
    (generate_intelligence_report db now hours).unique_accounts
        = ((get_tweets db { since := some (now - hours * 3600) } 10000).map
            (fun t => t.username)).toFinset.card ∧
    (generate_intelligence_report db now hours).total_engagement
        = ((get_tweets db { since := some (now - hours * 3600) } 10000).map
            (fun t => t.likes + t.retweets)).sum ∧
    (get_tweets db { since := some (now - hours * 3600) } 10000).length
        = min 10000 (db.filter (fun t => decide (t.timestamp ≥ now - hours * 3600))).length ∧
    ((db.filter (fun t => decide (t.timestamp > now - hours * 3600))).length ≤ 10000 ∨
      ((∀ b ∈ get_tweets db { since := some (now - hours * 3600) } 10000,
          b ∈ db.filter (fun t => decide (t.timestamp > now - hours * 3600))) ∧
        (get_tweets db { since := some (now - hours * 3600) } 10000).length
          < (db.filter (fun t => decide (t.timestamp > now - hours * 3600))).length)) := by
  refine ⟨rfl, rfl, rfl, ?_, ?_⟩
  · rw [get_tweets_since, List.length_take, (List.mergeSort_perm _ _).length_eq]
  · by_cases hle :
      (db.filter (fun t => decide (t.timestamp > now - hours * 3600))).length ≤ 10000
    · exact Or.inl hle
    · refine Or.inr ⟨?_, ?_⟩
      · push_neg at hle
        intro b hb
        rw [get_tweets_since] at hb
        set ge := db.filter (fun t => decide (t.timestamp ≥ now - hours * 3600)) with hge
        set sorted := ge.mergeSort (fun a b => decide (b.timestamp ≤ a.timestamp)) with hsorted
        have hpair : sorted.Pairwise (fun a b => b.timestamp ≤ a.timestamp) := by
          have hs := @List.sorted_mergeSort Tweet
            (fun a b : Tweet => decide (b.timestamp ≤ a.timestamp))
            (fun a b c hab hbc => by
              simp only [decide_eq_true_eq] at *
              exact le_trans hbc hab)
            (fun a b => by
              simp only [Bool.or_eq_true, decide_eq_true_eq]
              exact le_total b.timestamp a.timestamp)
            ge
          exact hs.imp (fun h => by simpa using h)
        have hcnt : 10000 ≤ sorted.countP (fun t => decide (t.timestamp > now - hours * 3600)) := by
          have hperm : sorted.Perm ge := List.mergeSort_perm ge _
          rw [hperm.countP_eq]
          rw [hge, List.countP_filter]
          have hco : db.countP (fun a =>
              decide (a.timestamp > now - hours * 3600)
                && decide (a.timestamp ≥ now - hours * 3600))
              = db.countP (fun t => decide (t.timestamp > now - hours * 3600)) := by
            apply List.countP_congr
            intro t _
            simp only [Bool.and_eq_true, decide_eq_true_eq]
            constructor
            · intro h
              exact h.1
            · intro h
              exact ⟨h, le_of_lt h⟩
          rw [hco, ← List.countP_eq_length_filter] at *
          omega
        have hstrict := take_of_sorted_countP hpair hcnt b hb
        have hmem : b ∈ db := by
          have h1 : b ∈ sorted := List.mem_of_mem_take hb
          have h2 : b ∈ ge := (List.mergeSort_perm ge _).mem_iff.mp h1
          rw [hge, List.mem_filter] at h2
          exact h2.1
        rw [List.mem_filter]
        exact ⟨hmem, by simpa using hstrict⟩
      · rw [get_tweets_since, List.length_take, (List.mergeSort_perm _ _).length_eq]
        push_neg at hle
        exact lt_of_le_of_lt (min_le_left _ _) hle


/-- C10 counterexample: a store holding one post timestamped exactly at
the cutoff (`now = 0`, `hours = 24`, timestamp `-86400`).
`total_tweets_analyzed = 0` yet `unique_accounts = 1`: under the claim's
single notion of "the window" these are incompatible — with the boundary
post in the window, `total_tweets_analyzed` fails to count it (`0 ≠ 1`);
with the boundary post outside, the summary fields are computed from a
post outside the window. -/
theorem report_boundary_post_mismatch :
    (generate_intelligence_report [mkTweet "b" "acct" (-86400) 0] 0 24).total_tweets_analyzed
        = 0 ∧
    (generate_intelligence_report [mkTweet "b" "acct" (-86400) 0] 0 24).unique_accounts
        = 1 := by
  constructor
  · decide
  · show ((get_tweets [mkTweet "b" "acct" (-86400) 0]
        { since := some ((0:ℤ) - (24:ℕ) * 3600) } 10000).map (fun t => t.username)).toFinset.card = 1
    rw [get_tweets_since]
    have hf : ([mkTweet "b" "acct" (-86400) 0].filter
        (fun t => decide (t.timestamp ≥ (0:ℤ) - (24:ℕ) * 3600)))
        = [mkTweet "b" "acct" (-86400) 0] := by decide
    rw [hf]
    rw [List.mergeSort_singleton]
    decide
